import Mathlib

/-!
Verification of the vmd style system and line-wrapping writer
(src/markdown-viewer/writer.py, src/markdown-viewer/config.py).

The development shallowly embeds the Python classes as Lean definitions:
  * `Style` / `StyleL`    — the style values (styles module; modelled from the spec,
                            the styles module itself being absent from src/)
  * `MdText` / `MdTexts`  — the `elements.Text` tree fed to the writers
  * `TextStyleWriter.*`   — the style-stack writer (writer.py lines 9-41)
  * `DWriter.*`           — the `DisplayWriter` wrapping writer (writer.py lines 44-143)
  * `ConfigReader.*`      — the INI-like config reader (config.py lines 38-88)
  * `StyleParser.*`       — the style-descriptor parser (config.py lines 128-166)
  * `stylesConfigInit`    — `StylesConfig.__init__` (config.py lines 91-125)
-/

set_option maxRecDepth 40000

deriving instance DecidableEq for Except

mutual
/-- Modelled from the spec (the `styles` module is not under src/): the closed
enumeration of style kinds, `Composite` holding an ordered list of styles.
`StyleL` is the child list, declared mutually so that recursion over styles
stays structural. -/
inductive Style where
  | clear : Style
  | bold : Style
  | italic : Style
  | underline : Style
  | inverse : Style
  | faint : Style
  | fg (code : Nat) : Style
  | bg (code : Nat) : Style
  | composite (children : StyleL) : Style
deriving DecidableEq

inductive StyleL where
  | nil : StyleL
  | cons (hd : Style) (tl : StyleL) : StyleL
deriving DecidableEq
end

/-- Convert a plain list of styles into a `StyleL` child list. -/
def StyleL.ofList : List Style → StyleL
  | [] => StyleL.nil
  | s :: rest => StyleL.cons s (StyleL.ofList rest)

mutual
/-- Modelled from the spec (styles module absent from src/): applying a style
emits its escape sequence(s); `Composite` emits each child's sequence in listed
order.  Escapes are abstract: the result is the ordered list of simple styles
whose escape codes get sent to the sink. -/
def Style.applySeq : Style → List Style
  | Style.composite cs => StyleL.applySeqL cs
  | s => [s]

def StyleL.applySeqL : StyleL → List Style
  | StyleL.nil => []
  | StyleL.cons s rest => Style.applySeq s ++ StyleL.applySeqL rest
end

/-- One event observed at the writer's output, instrumented with stack markers.
`esc` and `txt` are what the sink actually receives (`style.apply(output)` and
`output.write(...)`); `pushM`/`popM` mark the `push_style`/`pop_style` calls and
are not sink output. -/
inductive TEvent where
  | esc (s : Style) : TEvent
  | txt (s : String) : TEvent
  | pushM (s : Style) : TEvent
  | popM : TEvent
deriving DecidableEq

/-- The sink events `style.apply(output)` produces. -/
def escEvs (s : Style) : List TEvent := s.applySeq.map TEvent.esc

mutual
/-- The `elements.Text` tree handed to `write_text`: a node is a raw string or
a group with an optional style and ordered children (`MdTexts`, mutual so that
recursion stays structural). -/
inductive MdText where
  | str (s : String) : MdText
  | text (style : Option Style) (children : MdTexts) : MdText
deriving DecidableEq

inductive MdTexts where
  | nil : MdTexts
  | cons (hd : MdText) (tl : MdTexts) : MdTexts
deriving DecidableEq
end

/-- `TextStyleWriter.push_style`: append to the stack, then apply the style. -/
def TextStyleWriter.push_style (st : List Style) (s : Style) : List TEvent × List Style :=
  (TEvent.pushM s :: escEvs s, st ++ [s])

/-- `TextStyleWriter.pop_style`: pop the last stack entry, apply `ClearStyle`,
then reapply every remaining stack entry in order (`apply_all_styles`). -/
def TextStyleWriter.pop_style (st : List Style) : List TEvent × List Style :=
  (TEvent.popM :: (escEvs Style.clear ++ (st.dropLast.map escEvs).flatten), st.dropLast)

mutual
/-- `TextStyleWriter.write_text` (writer.py lines 28-41): a raw string is
forwarded verbatim to the sink; a `Text` group pushes its style (when present),
recurses into the children in order, then pops. -/
def TextStyleWriter.write_text (st : List Style) : MdText → List TEvent × List Style
  | MdText.str s => ([TEvent.txt s], st)
  | MdText.text none cs => TextStyleWriter.write_texts st cs
  | MdText.text (some sty) cs =>
    let p := TextStyleWriter.push_style st sty
    let c := TextStyleWriter.write_texts p.2 cs
    let q := TextStyleWriter.pop_style c.2
    (p.1 ++ c.1 ++ q.1, q.2)

def TextStyleWriter.write_texts (st : List Style) : MdTexts → List TEvent × List Style
  | MdTexts.nil => ([], st)
  | MdTexts.cons t ts =>
    let a := TextStyleWriter.write_text st t
    let b := TextStyleWriter.write_texts a.2 ts
    (a.1 ++ b.1, b.2)
end

example : (TextStyleWriter.write_text []
    (MdText.text (some Style.bold) (MdTexts.cons (MdText.str "hi") MdTexts.nil))).1 =
    [TEvent.pushM Style.bold, TEvent.esc Style.bold, TEvent.txt "hi",
     TEvent.popM, TEvent.esc Style.clear] := by decide

/-- ASCII reading of Python's `str.isprintable` for a single character
(control characters are not printable, the space is); all inputs the claims
evaluate are ASCII. -/
def isPrintableChar (c : Char) : Bool := 0x20 ≤ c.toNat && c.toNat < 0x7f

/-- Printable length — "character count excluding non-printable/escape
characters" (modelled from the spec; `utils.get_printable_length` is not under
src/). -/
def printableLen (l : List Char) : Nat := (l.filter isPrintableChar).length

/-- Split a character list on a separator character; `splitOn sep l` always
returns at least one (possibly empty) piece, like Python's `str.split(sep)`. -/
def splitOn (sep : Char) : List Char → List (List Char)
  | [] => [[]]
  | c :: cs =>
    if c = sep then [] :: splitOn sep cs
    else
      match splitOn sep cs with
      | [] => [[c]]
      | l :: ls => (c :: l) :: ls

/-- `break_regex.search(...)` — `break_regex` is `re.compile(' ')` — as the
index of the first space, `none` when the pattern does not occur. -/
def breakRegexSearch : List Char → Option Nat
  | [] => none
  | c :: cs =>
    if c = ' ' then some 0
    else (breakRegexSearch cs).map (fun i => i + 1)

/-- `DisplayWriter.get_break_index` (writer.py lines 125-131): search the
reversed text for the first `' '` and translate the match position back into
an index of the original text. -/
def DisplayWriter.get_break_index (text : List Char) : Option Nat :=
  match breakRegexSearch text.reverse with
  | none => none
  | some m => some (text.length - m - 1)

/-- The straightforward reference behaviour `get_break_index` is claimed to
refine: the index of the last space in the text, `none` when there is none. -/
def lastSpaceIndexSpec : List Char → Option Nat
  | [] => none
  | c :: cs =>
    match lastSpaceIndexSpec cs with
    | some i => some (i + 1)
    | none => if c = ' ' then some 0 else none

/-- The `DisplayWriter` instance state: the inherited style stack and output,
`columns`, `chars_on_line`, and the prefix string with its printable length
(writer.py lines 44-58). -/
structure DWriter where
  styleStack : List Style
  output : List TEvent
  columns : Int
  charsOnLine : Int
  pfx : String
  pfxPrintableLength : Int
deriving DecidableEq

/-- A freshly constructed `DisplayWriter` with an explicit column count. -/
def DWriter.fresh (columns : Int) : DWriter :=
  { styleStack := [], output := [], columns := columns, charsOnLine := 0,
    pfx := "", pfxPrintableLength := 0 }

/-- `DisplayWriter.line_space` (writer.py lines 78-81): the mod lets a prefix
longer than the terminal width wrap onto the next line. -/
def DWriter.line_space (w : DWriter) : Int :=
  w.columns - w.pfxPrintableLength % w.columns

/-- `DisplayWriter.available_line_space` (writer.py lines 83-85). -/
def DWriter.available_line_space (w : DWriter) : Int :=
  w.line_space - w.charsOnLine

/-- `output.write(...)` on the shared sink. -/
def DWriter.emit (w : DWriter) (e : TEvent) : DWriter :=
  { w with output := w.output ++ [e] }

/-- `push_style` inherited from `TextStyleWriter`, acting on the writer's own
stack and output. -/
def DWriter.push_style (w : DWriter) (s : Style) : DWriter :=
  { w with styleStack := w.styleStack ++ [s],
           output := w.output ++ (TEvent.pushM s :: escEvs s) }

/-- `pop_style` inherited from `TextStyleWriter`. -/
def DWriter.pop_style (w : DWriter) : DWriter :=
  { w with styleStack := w.styleStack.dropLast,
           output := w.output ++
             (TEvent.popM ::
               (escEvs Style.clear ++ (w.styleStack.dropLast.map escEvs).flatten)) }

/-- `DisplayWriter.write_prefix` (writer.py lines 138-142): nothing when the
prefix is empty; otherwise push `ClearStyle`, write the prefix verbatim through
a plain `TextStyleWriter` sharing the sink, and pop. -/
def DWriter.write_pfx (w : DWriter) : DWriter :=
  if w.pfx = "" then w
  else ((w.push_style Style.clear).emit (TEvent.txt w.pfx)).pop_style

/-- `DisplayWriter.new_line` (writer.py lines 133-136). -/
def DWriter.new_line (w : DWriter) : DWriter :=
  ({ w.emit (TEvent.txt "\n") with charsOnLine := 0 }).write_pfx

/-- One iteration of the character loop of `DisplayWriter.write_text`
(writer.py lines 96-121); the pending buffer is the loop-local `buf`. -/
def DWriter.write_char : DWriter × List Char → Char → DWriter × List Char :=
  fun wb c =>
    if c = '\n' then
      (((wb.1.emit (TEvent.txt (String.mk wb.2))).new_line), [])
    else
      let buf := wb.2 ++ [c]
      let w :=
        if isPrintableChar c then { wb.1 with charsOnLine := wb.1.charsOnLine + 1 }
        else wb.1
      if w.available_line_space < 0 then
        match DisplayWriter.get_break_index buf with
        | none =>
          ((w.emit (TEvent.txt (String.mk buf.dropLast))).new_line, [c])
        | some i =>
          ((w.emit (TEvent.txt (String.mk (buf.take i)))).new_line, buf.drop (i + 1))
      else (w, buf)

/-- The string case of `DisplayWriter.write_text` (writer.py lines 87-123):
consume the input one character at a time, then flush whatever remains in the
pending buffer. -/
def DWriter.write_str (w : DWriter) (s : String) : DWriter :=
  let r := s.data.foldl DWriter.write_char (w, [])
  r.1.emit (TEvent.txt (String.mk r.2))

mutual
/-- `DisplayWriter.write_text` on a tree node: strings go through the wrapping
path, `Text` groups are walked exactly as in `TextStyleWriter.write_text`, the
recursive calls dispatching back to `DisplayWriter.write_text`. -/
def DWriter.write_text (w : DWriter) : MdText → DWriter
  | MdText.str s => w.write_str s
  | MdText.text none cs => DWriter.write_texts w cs
  | MdText.text (some sty) cs =>
    (DWriter.write_texts (w.push_style sty) cs).pop_style

def DWriter.write_texts (w : DWriter) : MdTexts → DWriter
  | MdTexts.nil => w
  | MdTexts.cons t ts => DWriter.write_texts (w.write_text t) ts
end

/-- The characters the sink receives (escape events carry no printable
characters; markers are not sink output). -/
def sinkChars (evs : List TEvent) : List Char :=
  (evs.map (fun e =>
    match e with
    | TEvent.txt s => s.data
    | _ => [])).flatten

/-- The emitted lines: sink characters split at line breaks. -/
def sinkLines (evs : List TEvent) : List (List Char) :=
  splitOn '\n' (sinkChars evs)

/-- A flattened view of the sink: escapes interleaved with individual
characters, for comparing exact output sequences. -/
inductive SinkItem where
  | escI (s : Style) : SinkItem
  | chI (c : Char) : SinkItem
deriving DecidableEq

/-- Flatten the instrumented events into the exact sink sequence. -/
def flatSink (evs : List TEvent) : List SinkItem :=
  (evs.map (fun e =>
    match e with
    | TEvent.txt s => s.data.map SinkItem.chI
    | TEvent.esc s => [SinkItem.escI s]
    | _ => [])).flatten

example : sinkLines ((DWriter.fresh 6).write_str "lorem ipsum dolor").output =
    ["lorem".data, "ipsum".data, "dolor".data] := by decide

example : sinkLines ((DWriter.fresh 3).write_str "ab cd e f").output =
    ["ab".data, "cd e".data, "f".data] := by decide

/-- Python whitespace, as matched by `str.strip()` and the regex class `\s`
(ASCII range). -/
def isPySpace (c : Char) : Bool :=
  c = ' ' || c = '\t' || c = '\n' || c = '\r' || c = '\x0b' || c = '\x0c'

/-- Python's `str.strip()`. -/
def stripChars (l : List Char) : List Char :=
  ((l.dropWhile isPySpace).reverse.dropWhile isPySpace).reverse

/-- `str.strip()` on a `String`. -/
def stripStr (s : String) : String := String.mk (stripChars s.data)

/-- Group 1 of `comment_regex` `^([^#]*)#?` (config.py line 41): everything
before the first `#`. -/
def stripComment (l : List Char) : List Char := l.takeWhile (fun c => c ≠ '#')

/-- The character class `[a-z0-9_]` of `entry_regex`. -/
def isKeyChar (c : Char) : Bool :=
  (97 ≤ c.toNat && c.toNat ≤ 122) || c.isDigit || c = '_'

/-- The character class `[a-z_]` of `group_header_regex`. -/
def isGroupChar (c : Char) : Bool :=
  (97 ≤ c.toNat && c.toNat ≤ 122) || c = '_'

/-- `entry_regex` `^(\s|\t)*([a-z0-9_]+)(\s|\t)*=(.*)$` (config.py line 43):
returns (group 2, group 4) — the key and the raw (unstripped) value. -/
def ConfigReader.entry_match (s : String) : Option (String × String) :=
  let l := s.data.dropWhile isPySpace
  let key := l.takeWhile isKeyChar
  match key, (l.drop key.length).dropWhile isPySpace with
  | [], _ => none
  | _, '=' :: rest => some (String.mk key, String.mk rest)
  | _, _ => none

/-- `group_header_regex` `^\[([a-z_]+)\]$` (config.py line 42): returns the
group name. -/
def ConfigReader.group_header_match (s : String) : Option String :=
  match s.data with
  | '[' :: rest =>
    let name := rest.takeWhile isGroupChar
    if name.length ≠ 0 ∧ rest.drop name.length = [']'] then some (String.mk name)
    else none
  | _ => none

/-- `ConfigReader.read_line` (config.py lines 45-54).  The file is the list of
raw lines as Python's `readline` would hand them out (each ending in `"\n"`,
except possibly the last); the empty string marks end of file.  Lines equal to
`"\n"` are skipped, then the comment is stripped and the line `strip()`ped. -/
def ConfigReader.read_line : List String → Option String × List String
  | [] => (none, [])
  | l :: rest =>
    if l = "\n" then ConfigReader.read_line rest
    else if l = "" then (none, rest)
    else (some (stripStr (String.mk (stripComment l.data))), rest)

/-- The two-level config mapping `group → key → raw value`, as an
insertion-ordered association list (Python dicts preserve insertion order). -/
abbrev CfgMap : Type := List (String × List (String × String))

/-- Ordered-dict lookup. -/
def lookupKV (m : List (String × String)) (k : String) : Option String :=
  match m with
  | [] => none
  | kv :: rest => if kv.1 = k then some kv.2 else lookupKV rest k

/-- Ordered-dict `del m[k]`. -/
def eraseKV (m : List (String × String)) (k : String) : List (String × String) :=
  m.filter (fun kv => kv.1 ≠ k)

/-- `group in config`. -/
def containsGroup (cfg : CfgMap) (g : String) : Bool :=
  (cfg.map (fun gr => gr.1)).contains g

/-- `config[g] = {}` for a fresh group `g`. -/
def addGroup (cfg : CfgMap) (g : String) : CfgMap := cfg ++ [(g, [])]

/-- Ordered-dict assignment `m[k] = v`: overwrite in place, or append. -/
def setKV (m : List (String × String)) (k v : String) : List (String × String) :=
  match m with
  | [] => [(k, v)]
  | kv :: rest => if kv.1 = k then (k, v) :: rest else kv :: setKV rest k v

/-- `config[current_group][key] = value`. -/
def setEntry (cfg : CfgMap) (g k v : String) : CfgMap :=
  cfg.map (fun gr => if gr.1 = g then (gr.1, setKV gr.2 k v) else gr)

/-- The loop of `ConfigReader.read_config` (config.py lines 56-88).  `fuel`
only bounds the iteration count so the recursion is structural: every
iteration that continues consumes at least one line, so `file.length + 1`
iterations always suffice. -/
def ConfigReader.read_config_go :
    Nat → List String → Option String → CfgMap → Except String CfgMap
  | 0, _, _, config => Except.ok config
  | fuel + 1, file, current_group, config =>
    match ConfigReader.read_line file with
    | (none, _) => Except.ok config
    | (some line, rest) =>
      match ConfigReader.entry_match line with
      | some kv =>
        match current_group with
        | none => Except.error ("Unexpected line in config: " ++ line)
        | some g =>
          ConfigReader.read_config_go fuel rest (some g)
            (setEntry config g kv.1 (stripStr kv.2))
      | none =>
        match ConfigReader.group_header_match line with
        | some g =>
          if containsGroup config g then Except.error ("Group defined twice: " ++ g)
          else ConfigReader.read_config_go fuel rest (some g) (addGroup config g)
        | none => Except.error ("Unparsable line in config: " ++ line)

/-- `ConfigReader.read_config` on a whole file. -/
def ConfigReader.read_config (file : List String) : Except String CfgMap :=
  ConfigReader.read_config_go (file.length + 1) file none []

/-- The `simple_styles` dictionary of `StyleParser` (config.py lines 130-137). -/
def StyleParser.simple_styles (tok : String) : Option Style :=
  if tok = "clear" then some Style.clear
  else if tok = "bold" then some Style.bold
  else if tok = "italic" then some Style.italic
  else if tok = "underline" then some Style.underline
  else if tok = "inverse" then some Style.inverse
  else if tok = "faint" then some Style.faint
  else none

/-- `int(...)` on a run of decimal digits. -/
def digitsToNat (ds : List Char) : Nat :=
  ds.foldl (fun n c => n * 10 + (c.toNat - 48)) 0

/-- `colour_style_regex` `^(f|b)gcolour\((\d{1,3})\)$` (config.py line 139):
returns (whether the first group is `f`, the parsed colour number).  The
digits are the maximal digit run after `(`; the regex matches exactly when
that run has length 1-3 and is immediately followed by the final `)`. -/
def StyleParser.colour_match (tok : String) : Option (Bool × Nat) :=
  match tok.data with
  | [] => none
  | c :: rest =>
    if c = 'f' ∨ c = 'b' then
      if rest.take 8 = "gcolour(".data then
        let after := rest.drop 8
        let ds := after.takeWhile Char.isDigit
        if 1 ≤ ds.length ∧ ds.length ≤ 3 ∧ after.drop ds.length = [')'] then
          some (c = 'f', digitsToNat ds)
        else none
      else none
    else none

/-- `style_str.lower().strip()` applied to one comma-separated piece. -/
def StyleParser.norm_token (t : List Char) : String :=
  stripStr (String.mk (t.map Char.toLower))

/-- The per-token body of the loop in `StyleParser.parse` (config.py lines
144-158): simple-style lookup, then the colour pattern, otherwise the
unknown-identifier error naming the (normalised) token. -/
def StyleParser.parse_token (tok : String) : Except String Style :=
  match StyleParser.simple_styles tok with
  | some s => Except.ok s
  | none =>
    match StyleParser.colour_match tok with
    | some fn => Except.ok (if fn.1 then Style.fg fn.2 else Style.bg fn.2)
    | none => Except.error ("Unknown style identifier: \"" ++ tok ++ "\"")

/-- The accumulation loop of `StyleParser.parse`: the first failing token
aborts the whole parse. -/
def StyleParser.parse_tokens : List String → Except String (List Style)
  | [] => Except.ok []
  | t :: ts =>
    match StyleParser.parse_token t with
    | Except.error e => Except.error e
    | Except.ok s =>
      match StyleParser.parse_tokens ts with
      | Except.error e => Except.error e
      | Except.ok rest => Except.ok (s :: rest)

/-- `StyleParser.parse` (config.py lines 141-166): split on `,`, lowercase and
strip each token, parse each, then collapse zero/one/many results. -/
def StyleParser.parse (styles_str : String) : Except String Style :=
  match StyleParser.parse_tokens
      ((splitOn ',' styles_str.data).map StyleParser.norm_token) with
  | Except.error e => Except.error e
  | Except.ok [] => Except.ok (Style.composite StyleL.nil)
  | Except.ok [s] => Except.ok s
  | Except.ok ss => Except.ok (Style.composite (StyleL.ofList ss))

example : StyleParser.parse "bold, fgcolour(208)" =
    Except.ok (Style.composite (StyleL.cons Style.bold
      (StyleL.cons (Style.fg 208) StyleL.nil))) := by decide

example : StyleParser.parse "" =
    Except.error "Unknown style identifier: \"\"" := by decide

example : ConfigReader.read_config ["# hello\n"] =
    Except.error "Unparsable line in config: " := by decide

example : ConfigReader.read_config ["[styles]\n", "strong = bold # note\n"] =
    Except.ok [("styles", [("strong", "bold")])] := by decide

/-- Modelled from the spec (styles module absent from src/):
`CompositeStyle(...)` over members that may be absent (`None`) — an absent
member contributes no additional style (spec: heading levels 1-2 default to no
additional style). -/
def mkComposite (l : List (Option Style)) : Style :=
  Style.composite (StyleL.ofList (l.filterMap id))

/-- The resolved named style set produced by `StylesConfig.__init__`
(config.py lines 91-116). -/
structure StylesConfig where
  heading_base : Option Style
  headings : List Style
  strong : Option Style
  emphasis : Option Style
  inline_code : Option Style
  link : Option Style
  link_index : Option Style
  link_hint : Option Style
  list_bullet : Option Style
  list_number : Option Style
  paragraph : Option Style
deriving DecidableEq

/-- `StylesConfig.parse_style` (config.py lines 118-125): return the default
when the key is absent; otherwise delete the key from the map and parse its
descriptor.  The threaded map models the in-place `del config[key]`. -/
def StylesConfig.parse_style (config : List (String × String)) (key : String)
    (dflt : Option Style) : Except String (Option Style × List (String × String)) :=
  match lookupKV config key with
  | none => Except.ok (dflt, config)
  | some v =>
    match StyleParser.parse v with
    | Except.error e => Except.error e
    | Except.ok s => Except.ok (some s, eraseKV config key)

/-- Sequencing used to embed `StylesConfig.__init__`: a `parse_style` failure
(a raised exception in the Python) aborts the whole construction, otherwise
the parsed style and the consumed map flow into the continuation. -/
def psBind {a : Type} (step : Except String (Option Style × List (String × String)))
    (f : Option Style → List (String × String) → Except String a) : Except String a :=
  match step with
  | Except.error e => Except.error e
  | Except.ok p => f p.1 p.2

/-- `StylesConfig.__init__` (config.py lines 91-116): resolve every role in
source order, threading the consumed map through, then fail on any leftover
key. -/
def stylesConfigInit (config : List (String × String)) : Except String StylesConfig :=
  psBind (StylesConfig.parse_style config "heading_base"
      (some (Style.composite (StyleL.ofList [Style.clear, Style.bold, Style.fg 208])))) fun hb c1 =>
  psBind (StylesConfig.parse_style c1 "heading1" none) fun o1 c2 =>
  psBind (StylesConfig.parse_style c2 "heading2" none) fun o2 c3 =>
  psBind (StylesConfig.parse_style c3 "heading3" (some Style.faint)) fun o3 c4 =>
  psBind (StylesConfig.parse_style c4 "heading4" (some Style.faint)) fun o4 c5 =>
  psBind (StylesConfig.parse_style c5 "heading5" (some Style.faint)) fun o5 c6 =>
  psBind (StylesConfig.parse_style c6 "heading6" (some Style.faint)) fun o6 c7 =>
  psBind (StylesConfig.parse_style c7 "strong" (some Style.bold)) fun stg c8 =>
  psBind (StylesConfig.parse_style c8 "emphasis" (some Style.italic)) fun emp c9 =>
  psBind (StylesConfig.parse_style c9 "inline_code"
      (some (Style.composite (StyleL.ofList [Style.clear, Style.fg 196, Style.bg 52])))) fun ic c10 =>
  psBind (StylesConfig.parse_style c10 "link"
      (some (Style.composite (StyleL.ofList [Style.underline, Style.fg 82])))) fun lk c11 =>
  psBind (StylesConfig.parse_style c11 "link_index" (some (Style.fg 82))) fun li c12 =>
  psBind (StylesConfig.parse_style c12 "link_hint" (some (Style.fg 240))) fun lh c13 =>
  psBind (StylesConfig.parse_style c13 "list_bullet" (some (Style.fg 208))) fun lb c14 =>
  psBind (StylesConfig.parse_style c14 "list_number" lb) fun ln c15 =>
  psBind (StylesConfig.parse_style c15 "paragraph" none) fun pg c16 =>
  match c16 with
  | [] => Except.ok
      { heading_base := hb,
        headings := [mkComposite [hb, o1], mkComposite [hb, o2], mkComposite [hb, o3],
          mkComposite [hb, o4], mkComposite [hb, o5], mkComposite [hb, o6]],
        strong := stg, emphasis := emp, inline_code := ic, link := lk,
        link_index := li, link_hint := lh, list_bullet := lb,
        list_number := ln, paragraph := pg }
  | kv :: _ => Except.error ("Unknown setting in styles section: " ++ kv.1)

example :
    (stylesConfigInit []).map (fun sc => (sc.list_bullet, sc.list_number)) =
    Except.ok (some (Style.fg 208), some (Style.fg 208)) := by decide

example :
    (stylesConfigInit [("list_bullet", "bold")]).map
      (fun sc => (sc.list_bullet, sc.list_number)) =
    Except.ok (some Style.bold, some Style.bold) := by decide

example :
    (stylesConfigInit [("list_number", "faint")]).map
      (fun sc => (sc.list_bullet, sc.list_number)) =
    Except.ok (some (Style.fg 208), some Style.faint) := by decide

example : stylesConfigInit [("foo", "bar")] =
    Except.error "Unknown setting in styles section: foo" := by decide

theorem lastSpaceIndexSpec_append_singleton (l : List Char) (c : Char) :
    lastSpaceIndexSpec (l ++ [c]) =
      if c = ' ' then some l.length else lastSpaceIndexSpec l := by
  induction l with
  | nil => rfl
  | cons a as ih =>
    have h1 : lastSpaceIndexSpec ((a :: as) ++ [c]) =
        match lastSpaceIndexSpec (as ++ [c]) with
        | some i => some (i + 1)
        | none => if a = ' ' then some 0 else none := rfl
    rw [h1, ih]
    by_cases hc : c = ' '
    · rw [if_pos hc, if_pos hc]
      rfl
    · rw [if_neg hc, if_neg hc]
      rfl

/-- Claim C10: `get_break_index`, implemented by searching the reversed
string, returns the index of the last space in the text (`none` when the text
has no space) — it coincides with the straightforward last-index-of-space
reference definition. -/
theorem claim_C10_get_break_index_refines (text : List Char) :
    DisplayWriter.get_break_index text = lastSpaceIndexSpec text := by
  induction text using List.reverseRecOn with
  | nil => rfl
  | append_singleton l c ih =>
    rw [lastSpaceIndexSpec_append_singleton]
    simp only [DisplayWriter.get_break_index, List.reverse_append, List.reverse_cons,
      List.reverse_nil, List.nil_append, List.singleton_append, breakRegexSearch]
    by_cases hc : c = ' '
    · simp [hc]
    · rw [if_neg hc, if_neg hc]
      have hgb : DisplayWriter.get_break_index l = lastSpaceIndexSpec l := ih
      rw [← hgb]
      cases hbr : breakRegexSearch l.reverse with
      | none => simp [DisplayWriter.get_break_index, hbr]
      | some m =>
        simp only [DisplayWriter.get_break_index, hbr, List.length_append,
          List.length_cons, List.length_nil]
        show some (l.length + 1 - (m + 1) - 1) = some (l.length - m - 1)
        congr 1
        omega

/-- Claim C9: for every positive column count and every (non-negative) prefix
printable length, `line_space = columns - (prefix_printable_length mod
columns)` is non-negative, even when the prefix is longer than the terminal
width. -/
theorem claim_C9_line_space_nonneg (columns p : Int) (hcol : 0 < columns) (_hp : 0 ≤ p) :
    0 ≤ ({ DWriter.fresh columns with pfxPrintableLength := p }).line_space := by
  have hlt := Int.emod_lt_of_pos p hcol
  show 0 ≤ columns - p % columns
  omega

theorem claim_C9_witness :
    0 ≤ ({ DWriter.fresh 6 with pfxPrintableLength := 13 }).line_space :=
  claim_C9_line_space_nonneg 6 13 (by decide) (by decide)

/-- Claim C5: with `columns = 6`, an empty prefix, and a fresh DisplayWriter,
writing "lorem ipsum dolor" emits exactly the lines "lorem", "ipsum",
"dolor" — each break at the space nearest the overflow point, the triggering
space dropped. -/
theorem claim_C5_lorem_wrap :
    sinkLines ((DWriter.fresh 6).write_str "lorem ipsum dolor").output =
      ["lorem".data, "ipsum".data, "dolor".data] := by decide

/-- Claim C1 (refuted by the code): evaluating the writer at the failing
input — `columns = 3`, fresh writer, empty prefix, input "ab cd e f" whose
space-delimited tokens all have printable length at most 3 — emits the middle
line "cd e" of printable length 4 > columns.  (After a space break the
characters carried into the new buffer are not re-counted in `chars_on_line`,
so the next overflow check fires late and the break lands on the overflow
space, keeping an earlier space inside the emitted line.) -/
theorem claim_C1_wrap_invariant_violated :
    sinkLines ((DWriter.fresh 3).write_str "ab cd e f").output =
      ["ab".data, "cd e".data, "f".data] ∧
    ((splitOn ' ' "ab cd e f".data).all fun t => decide (printableLen t ≤ 3)) = true ∧
    3 < printableLen "cd e".data := by decide

/-- Claim C2 (refuted by the code): a line that is blank after comment
stripping is not skipped.  The same config parses when the blank line is a
bare newline, but aborts with the unparsable-line error when the line is
comment-only or whitespace-only (those strip to the empty line, which matches
neither the entry nor the group-header pattern). -/
theorem claim_C2_blank_after_strip_not_skipped :
    ConfigReader.read_config ["[styles]\n", "# hello\n", "strong = bold\n"] =
      Except.error "Unparsable line in config: " ∧
    ConfigReader.read_config ["[styles]\n", "   \n", "strong = bold\n"] =
      Except.error "Unparsable line in config: " ∧
    ConfigReader.read_config ["[styles]\n", "\n", "strong = bold\n"] =
      Except.ok [("styles", [("strong", "bold")])] := by decide

/-- Claim C3 (counterexample): the empty descriptor string does not yield a
no-op Composite — `StyleParser.parse ""` raises the unknown-identifier error
naming the empty token, because `"".split(',')` produces one empty token. -/
theorem claim_C3_empty_descriptor_errors :
    StyleParser.parse "" = Except.error "Unknown style identifier: \"\"" := by decide

/-- Claim C3 (amended): splitting a descriptor never produces zero tokens —
the empty string produces one empty token, so `parse ""` fails with the
unknown-identifier error naming the empty token; the zero-token branch value
`CompositeStyle()` would indeed emit no escape output, but no input string
reaches it. -/
theorem claim_C3_amended :
    StyleParser.parse "" = Except.error "Unknown style identifier: \"\"" ∧
    (∀ l : List Char, splitOn ',' l ≠ []) ∧
    Style.applySeq (Style.composite StyleL.nil) = [] := by
  refine ⟨by decide, ?_, by decide⟩
  intro l
  cases l with
  | nil => simp [splitOn]
  | cons c cs =>
    by_cases hc : c = ','
    · simp [splitOn, hc]
    · simp only [splitOn, if_neg hc]
      cases splitOn ',' cs <;> simp

/-- Claim C4 (counterexample): the claimed sink sequence — Bold escape, text
before the break, Clear, line break, Bold escape reapplied, text after the
break, Clear on exit — is not what a fresh DisplayWriter (empty prefix)
emits for a Bold group containing a literal newline. -/
theorem claim_C4_claimed_sequence_refuted :
    flatSink ((DWriter.fresh 80).write_text
        (MdText.text (some Style.bold)
          (MdTexts.cons (MdText.str "ab\ncd") MdTexts.nil))).output ≠
      [SinkItem.escI Style.bold] ++ "ab".data.map SinkItem.chI ++
        [SinkItem.escI Style.clear] ++ [SinkItem.chI '\n'] ++
        [SinkItem.escI Style.bold] ++ "cd".data.map SinkItem.chI ++
        [SinkItem.escI Style.clear] := by decide

/-- Claim C4 (amended): with the writer's (default) empty prefix, the emitted
sink sequence is — Bold escape, text before the break, the line break, text
after the break, Clear on group exit.  No Clear is sent before the break and
the Bold escape is not reapplied after it, because the clear-and-restore pair
only accompanies the re-emission of a non-empty prefix. -/
theorem claim_C4_amended_sequence :
    flatSink ((DWriter.fresh 80).write_text
        (MdText.text (some Style.bold)
          (MdTexts.cons (MdText.str "ab\ncd") MdTexts.nil))).output =
      [SinkItem.escI Style.bold] ++ "ab".data.map SinkItem.chI ++
        [SinkItem.chI '\n'] ++ "cd".data.map SinkItem.chI ++
        [SinkItem.escI Style.clear] := by decide

theorem splitOn_of_not_mem (sep : Char) (l : List Char) (h : sep ∉ l) :
    splitOn sep l = [l] := by
  induction l with
  | nil => rfl
  | cons c cs ih =>
    have hc : ¬c = sep := fun he => h (he ▸ List.mem_cons_self c cs)
    have hcs : sep ∉ cs := fun hm => h (List.mem_cons_of_mem c hm)
    simp only [splitOn, if_neg hc, ih hcs]

/-- Claim C7: a style-descriptor token (after per-token lowercasing and
stripping) that is neither in the fixed vocabulary nor of the form
`fgcolour(N)`/`bgcolour(N)` with 1-3 decimal digits makes `StyleParser.parse`
fail with the message `Unknown style identifier: "<token>"` naming the token. -/
theorem claim_C7_unknown_token_error (tok : String)
    (hcomma : ',' ∉ tok.data)
    (hsimple : StyleParser.simple_styles (StyleParser.norm_token tok.data) = none)
    (hcolour : StyleParser.colour_match (StyleParser.norm_token tok.data) = none) :
    StyleParser.parse tok =
      Except.error ("Unknown style identifier: \"" ++
        StyleParser.norm_token tok.data ++ "\"") := by
  unfold StyleParser.parse
  rw [splitOn_of_not_mem ',' tok.data hcomma]
  simp only [List.map_cons, List.map_nil, StyleParser.parse_tokens,
    StyleParser.parse_token, hsimple, hcolour]

theorem claim_C7_witness :
    StyleParser.parse "underilne" =
      Except.error "Unknown style identifier: \"underilne\"" := by
  have h := claim_C7_unknown_token_error "underilne" (by decide) (by decide) (by decide)
  exact h

theorem parse_style_of_not_mem (c : List (String × String)) (key : String)
    (dflt : Option Style) (h : lookupKV c key = none) :
    StylesConfig.parse_style c key dflt = Except.ok (dflt, c) := by
  unfold StylesConfig.parse_style
  rw [h]

theorem lookupKV_eraseKV_ne (c : List (String × String)) (k k2 : String) (h : k2 ≠ k) :
    lookupKV (eraseKV c k) k2 = lookupKV c k2 := by
  induction c with
  | nil => rfl
  | cons kv rest ih =>
    by_cases hk : kv.1 = k
    · have h1 : eraseKV (kv :: rest) k = eraseKV rest k := by
        simp [eraseKV, List.filter_cons, hk]
      have hne : ¬kv.1 = k2 := by rw [hk]; exact fun he => h he.symm
      rw [h1, ih]
      simp [lookupKV, hne]
    · have h1 : eraseKV (kv :: rest) k = kv :: eraseKV rest k := by
        simp [eraseKV, List.filter_cons, hk]
      rw [h1]
      by_cases hk2 : kv.1 = k2
      · simp [lookupKV, hk2]
      · simp [lookupKV, hk2, ih]

theorem parse_style_lookup_some (c : List (String × String)) (key : String)
    (dflt : Option Style) (v : String) (hv : lookupKV c key = some v)
    (x : Option Style) (c2 : List (String × String))
    (h : StylesConfig.parse_style c key dflt = Except.ok (x, c2)) :
    ∃ s, StyleParser.parse v = Except.ok s ∧ x = some s := by
  unfold StylesConfig.parse_style at h
  rw [hv] at h
  have h4 : (match StyleParser.parse v with
      | Except.error e => Except.error e
      | Except.ok s => Except.ok (some s, eraseKV c key)) = Except.ok (x, c2) := h
  cases hp : StyleParser.parse v with
  | error e =>
    rw [hp] at h4
    exact Except.noConfusion (show Except.error e = Except.ok (x, c2) from h4)
  | ok s =>
    rw [hp] at h4
    have h3 : Except.ok (some s, eraseKV c key) = Except.ok (x, c2) := h4
    injection h3 with hpair
    have hx : some s = x := congrArg Prod.fst hpair
    exact ⟨s, rfl, hx.symm⟩

theorem parse_style_preserves_lookup (c : List (String × String)) (key k2 : String)
    (dflt : Option Style) (x : Option Style) (c2 : List (String × String))
    (h : StylesConfig.parse_style c key dflt = Except.ok (x, c2)) (hne : k2 ≠ key) :
    lookupKV c2 k2 = lookupKV c k2 := by
  unfold StylesConfig.parse_style at h
  cases hl : lookupKV c key with
  | none =>
    rw [hl] at h
    have h3 : Except.ok ((dflt, c) : Option Style × List (String × String)) =
        Except.ok (x, c2) := h
    injection h3 with hpair
    have hc : c = c2 := congrArg Prod.snd hpair
    rw [← hc]
  | some v =>
    rw [hl] at h
    have h4 : (match StyleParser.parse v with
        | Except.error e => Except.error e
        | Except.ok s => Except.ok (some s, eraseKV c key)) = Except.ok (x, c2) := h
    cases hp : StyleParser.parse v with
    | error e =>
      rw [hp] at h4
      exact Except.noConfusion (show Except.error e = Except.ok (x, c2) from h4)
    | ok s =>
      rw [hp] at h4
      have h3 : Except.ok (some s, eraseKV c key) = Except.ok (x, c2) := h4
      injection h3 with hpair
      have hc : eraseKV c key = c2 := congrArg Prod.snd hpair
      rw [← hc]
      exact lookupKV_eraseKV_ne c key k2 hne

theorem psBind_ok {a : Type} (step : Except String (Option Style × List (String × String)))
    (f : Option Style → List (String × String) → Except String a) (r : a)
    (h : psBind step f = Except.ok r) :
    ∃ x c2, step = Except.ok (x, c2) ∧ f x c2 = Except.ok r := by
  cases hs : step with
  | error e =>
    rw [hs] at h
    exact Except.noConfusion (show Except.error e = Except.ok r from h)
  | ok p =>
    rw [hs] at h
    exact ⟨p.1, p.2, rfl, h⟩

/-- Claim C8: when the "styles" group has no `list_number` key, the resolved
`list_number` style is the very value `list_bullet` resolved to (the shared
value, whether `list_bullet` was configured or took its own default); when
`list_number` is present it is parsed from its own descriptor. -/
theorem claim_C8_list_number_shares_list_bullet (cfg : List (String × String))
    (sc : StylesConfig) (h : stylesConfigInit cfg = Except.ok sc) :
    (lookupKV cfg "list_number" = none → sc.list_number = sc.list_bullet) ∧
    (∀ v, lookupKV cfg "list_number" = some v →
      ∃ s, StyleParser.parse v = Except.ok s ∧ sc.list_number = some s) := by
  unfold stylesConfigInit at h
  obtain ⟨hb, c1, heq1, h⟩ := psBind_ok _ _ _ h
  obtain ⟨o1, c2, heq2, h⟩ := psBind_ok _ _ _ h
  obtain ⟨o2, c3, heq3, h⟩ := psBind_ok _ _ _ h
  obtain ⟨o3, c4, heq4, h⟩ := psBind_ok _ _ _ h
  obtain ⟨o4, c5, heq5, h⟩ := psBind_ok _ _ _ h
  obtain ⟨o5, c6, heq6, h⟩ := psBind_ok _ _ _ h
  obtain ⟨o6, c7, heq7, h⟩ := psBind_ok _ _ _ h
  obtain ⟨stg, c8, heq8, h⟩ := psBind_ok _ _ _ h
  obtain ⟨emp, c9, heq9, h⟩ := psBind_ok _ _ _ h
  obtain ⟨ic, c10, heq10, h⟩ := psBind_ok _ _ _ h
  obtain ⟨lk, c11, heq11, h⟩ := psBind_ok _ _ _ h
  obtain ⟨li, c12, heq12, h⟩ := psBind_ok _ _ _ h
  obtain ⟨lh, c13, heq13, h⟩ := psBind_ok _ _ _ h
  obtain ⟨lb, c14, heq14, h⟩ := psBind_ok _ _ _ h
  obtain ⟨ln, c15, heq15, h⟩ := psBind_ok _ _ _ h
  obtain ⟨pg, c16, heq16, h⟩ := psBind_ok _ _ _ h
  have hchain : lookupKV c14 "list_number" = lookupKV cfg "list_number" := by
    rw [parse_style_preserves_lookup _ _ _ _ _ _ heq14 (by decide),
      parse_style_preserves_lookup _ _ _ _ _ _ heq13 (by decide),
      parse_style_preserves_lookup _ _ _ _ _ _ heq12 (by decide),
      parse_style_preserves_lookup _ _ _ _ _ _ heq11 (by decide),
      parse_style_preserves_lookup _ _ _ _ _ _ heq10 (by decide),
      parse_style_preserves_lookup _ _ _ _ _ _ heq9 (by decide),
      parse_style_preserves_lookup _ _ _ _ _ _ heq8 (by decide),
      parse_style_preserves_lookup _ _ _ _ _ _ heq7 (by decide),
      parse_style_preserves_lookup _ _ _ _ _ _ heq6 (by decide),
      parse_style_preserves_lookup _ _ _ _ _ _ heq5 (by decide),
      parse_style_preserves_lookup _ _ _ _ _ _ heq4 (by decide),
      parse_style_preserves_lookup _ _ _ _ _ _ heq3 (by decide),
      parse_style_preserves_lookup _ _ _ _ _ _ heq2 (by decide),
      parse_style_preserves_lookup _ _ _ _ _ _ heq1 (by decide)]
  cases c16 with
  | cons kv rest =>
    exact Except.noConfusion
      (show Except.error ("Unknown setting in styles section: " ++ kv.1) =
        Except.ok sc from h)
  | nil =>
    have h3 : Except.ok
        ({ heading_base := hb,
           headings := [mkComposite [hb, o1], mkComposite [hb, o2], mkComposite [hb, o3],
             mkComposite [hb, o4], mkComposite [hb, o5], mkComposite [hb, o6]],
           strong := stg, emphasis := emp, inline_code := ic, link := lk,
           link_index := li, link_hint := lh, list_bullet := lb,
           list_number := ln, paragraph := pg } : StylesConfig) = Except.ok sc := h
    injection h3 with hsc
    constructor
    · intro hnone
      have hn14 : lookupKV c14 "list_number" = none := by rw [hchain]; exact hnone
      have hok := parse_style_of_not_mem c14 "list_number" lb hn14
      rw [heq15] at hok
      injection hok with hpair
      have hlnlb : ln = lb := congrArg Prod.fst hpair
      rw [← hsc]
      show ln = lb
      exact hlnlb
    · intro v hv
      have hs14 : lookupKV c14 "list_number" = some v := by rw [hchain]; exact hv
      obtain ⟨s, hps, hres⟩ := parse_style_lookup_some c14 "list_number" lb v hs14 ln c15 heq15
      refine ⟨s, hps, ?_⟩
      rw [← hsc]
      show ln = some s
      exact hres

theorem claim_C8_witness :
    ∃ sc, stylesConfigInit [("list_bullet", "bold")] = Except.ok sc ∧
      sc.list_number = sc.list_bullet := by
  cases hinit : stylesConfigInit [("list_bullet", "bold")] with
  | error e =>
    have hok : (stylesConfigInit [("list_bullet", "bold")]).toOption.isSome = true := by
      decide
    rw [hinit] at hok
    exact Bool.noConfusion (show false = true from hok)
  | ok sc =>
    exact ⟨sc, rfl, (claim_C8_list_number_shares_list_bullet _ sc hinit).1 (by decide)⟩

/-- The style-stack invariant checker for an instrumented trace: walk the
events keeping a shadow stack driven by the push/pop markers.
`CheckPops sh evs sh2` holds when the walk from shadow `sh` across `evs` is
well formed — every pop happens on a non-empty shadow, and the events sent to
the sink immediately after it are exactly `Clear`'s escape followed by the
escapes of every remaining shadow entry in order — and ends with shadow
`sh2`. -/
inductive CheckPops : List Style → List TEvent → List Style → Prop where
  | done (sh : List Style) : CheckPops sh [] sh
  | skipEsc (sh : List Style) (s : Style) (evs : List TEvent) (sh2 : List Style) :
      CheckPops sh evs sh2 → CheckPops sh (TEvent.esc s :: evs) sh2
  | skipTxt (sh : List Style) (x : String) (evs : List TEvent) (sh2 : List Style) :
      CheckPops sh evs sh2 → CheckPops sh (TEvent.txt x :: evs) sh2
  | push (sh : List Style) (s : Style) (evs : List TEvent) (sh2 : List Style) :
      CheckPops (sh ++ [s]) evs sh2 → CheckPops sh (TEvent.pushM s :: evs) sh2
  | pop (sh : List Style) (s : Style) (evs : List TEvent) (sh2 : List Style) :
      evs.take (escEvs Style.clear ++ (sh.map escEvs).flatten).length =
        escEvs Style.clear ++ (sh.map escEvs).flatten →
      CheckPops sh evs sh2 →
      CheckPops (sh ++ [s]) (TEvent.popM :: evs) sh2

theorem checkPops_esc_prepend (l : List Style) (sh : List Style) (evs : List TEvent)
    (sh2 : List Style) (h : CheckPops sh evs sh2) :
    CheckPops sh (l.map TEvent.esc ++ evs) sh2 := by
  induction l with
  | nil => simpa using h
  | cons s rest ih => exact CheckPops.skipEsc _ _ _ _ ih

theorem flatten_map_escEvs (sh : List Style) :
    (sh.map escEvs).flatten = ((sh.map Style.applySeq).flatten).map TEvent.esc := by
  induction sh with
  | nil => rfl
  | cons s rest ih =>
    simp only [List.map_cons, List.flatten_cons, List.map_append, ih]
    rfl

theorem pop_emission_as_escapes (sh : List Style) :
    escEvs Style.clear ++ (sh.map escEvs).flatten =
      (Style.applySeq Style.clear ++ (sh.map Style.applySeq).flatten).map TEvent.esc := by
  rw [List.map_append, flatten_map_escEvs]
  rfl

mutual
theorem tsw_write_text_inv (st : List Style) (t : MdText) :
    (TextStyleWriter.write_text st t).2 = st ∧
    ∀ b sh2, CheckPops st b sh2 →
      CheckPops st ((TextStyleWriter.write_text st t).1 ++ b) sh2 := by
  cases t with
  | str s => exact ⟨rfl, fun b sh2 hb => CheckPops.skipTxt _ _ _ _ hb⟩
  | text sty cs =>
    cases sty with
    | none => exact tsw_write_texts_inv st cs
    | some sty =>
      obtain ⟨hstack, hinv⟩ := tsw_write_texts_inv (st ++ [sty]) cs
      constructor
      · show (TextStyleWriter.pop_style
            (TextStyleWriter.write_texts (st ++ [sty]) cs).2).2 = st
        rw [hstack]
        show (st ++ [sty]).dropLast = st
        exact List.dropLast_concat
      · intro b sh2 hb
        show CheckPops st (((TEvent.pushM sty :: escEvs sty) ++
            (TextStyleWriter.write_texts (st ++ [sty]) cs).1 ++
            (TextStyleWriter.pop_style
              (TextStyleWriter.write_texts (st ++ [sty]) cs).2).1) ++ b) sh2
        rw [hstack]
        show CheckPops st (((TEvent.pushM sty :: escEvs sty) ++
            (TextStyleWriter.write_texts (st ++ [sty]) cs).1 ++
            (TEvent.popM :: (escEvs Style.clear ++
              ((st ++ [sty]).dropLast.map escEvs).flatten))) ++ b) sh2
        rw [List.dropLast_concat]
        simp only [List.cons_append, List.append_assoc]
        apply CheckPops.push
        apply checkPops_esc_prepend (Style.applySeq sty)
        apply hinv
        apply CheckPops.pop st sty
        · exact List.take_left _ _
        · rw [← List.append_assoc, pop_emission_as_escapes]
          exact checkPops_esc_prepend _ _ _ _ hb

theorem tsw_write_texts_inv (st : List Style) (ts : MdTexts) :
    (TextStyleWriter.write_texts st ts).2 = st ∧
    ∀ b sh2, CheckPops st b sh2 →
      CheckPops st ((TextStyleWriter.write_texts st ts).1 ++ b) sh2 := by
  cases ts with
  | nil => exact ⟨rfl, fun b sh2 hb => by simpa using hb⟩
  | cons t rest =>
    obtain ⟨h1t, h2t⟩ := tsw_write_text_inv st t
    obtain ⟨h1r, h2r⟩ := tsw_write_texts_inv ((TextStyleWriter.write_text st t).2) rest
    rw [h1t] at h1r h2r
    constructor
    · show (TextStyleWriter.write_texts (TextStyleWriter.write_text st t).2 rest).2 = st
      rw [h1t, h1r]
    · intro b sh2 hb
      show CheckPops st (((TextStyleWriter.write_text st t).1 ++
        (TextStyleWriter.write_texts (TextStyleWriter.write_text st t).2 rest).1) ++ b) sh2
      rw [h1t, List.append_assoc]
      exact h2t _ _ (h2r _ _ hb)
end

/-- Claim C6: during every StyledText tree traversal by `TextStyleWriter`,
the style stack is exactly restored around every styled group — its depth
always equals the current tree-traversal depth among styled ancestors (the
push/pop markers of the trace are properly bracketed over the shadow stack)
— and after any `pop_style` the sink has been sent `Clear` followed by a
reapplication of every remaining stack entry in order, which is what
`CheckPops` verifies at every pop marker of the trace. -/
theorem claim_C6_stack_invariant (st : List Style) (t : MdText) :
    (TextStyleWriter.write_text st t).2 = st ∧
    CheckPops st (TextStyleWriter.write_text st t).1 st := by
  obtain ⟨h1, h2⟩ := tsw_write_text_inv st t
  refine ⟨h1, ?_⟩
  have h3 := h2 [] st (CheckPops.done st)
  simpa using h3
